import Mathlib

/-!
Verification of the admission-control subsystem of the eventstreams service
against its route handler (src/routes/stream.js).

The route handler is embedded shallowly: the JavaScript string/number
primitives it relies on (truthiness, the `isNaN` numeric-string coercion of
ECMAScript `StringToNumber`, `Date.parse` on the ECMAScript Date Time String
Format, `String.prototype.split`, `Array.prototype.join`) are modelled as
executable Lean functions over character lists, and the handler itself as a
pure function from configuration, request and counter state to a result that
records either a structured HTTP error or the admitted session (incremented
counter keys, the registered close-handler decrement keys, and the arguments
handed to the kafka-sse streaming engine).
-/

namespace EventStreams

/-! ## JavaScript primitives -/

/-- ECMAScript whitespace characters recognised when coercing a string to a
number (tab, LF, VT, FF, CR, space, NBSP, LS, PS, BOM). -/
def jsWhitespace (c : Char) : Bool :=
  c.toNat = 9 || c.toNat = 10 || c.toNat = 11 || c.toNat = 12 || c.toNat = 13 ||
  c.toNat = 32 || c.toNat = 160 || c.toNat = 8232 || c.toNat = 8233 || c.toNat = 65279

/-- Strip leading and trailing ECMAScript whitespace. -/
def trimChars (l : List Char) : List Char :=
  ((l.dropWhile jsWhitespace).reverse.dropWhile jsWhitespace).reverse

def isDigitChar (c : Char) : Bool := 48 ≤ c.toNat && c.toNat ≤ 57

def isHexChar (c : Char) : Bool :=
  isDigitChar c || (97 ≤ c.toNat && c.toNat ≤ 102) || (65 ≤ c.toNat && c.toNat ≤ 70)

def isOctChar (c : Char) : Bool := 48 ≤ c.toNat && c.toNat ≤ 55

def isBinChar (c : Char) : Bool := c.toNat = 48 || c.toNat = 49

/-- Drop one optional leading sign character. -/
def dropSign : List Char → List Char
  | [] => []
  | c :: r => if c = '+' || c = '-' then r else c :: r

/-- Recognise an (optional) ECMAScript ExponentPart covering the whole list. -/
def expOk : List Char → Bool
  | [] => true
  | c :: r =>
    (c == 'e' || c == 'E') && !(dropSign r).isEmpty && (dropSign r).all isDigitChar

/-- Recognise an ECMAScript StrUnsignedDecimalLiteral (digits with optional
fraction and exponent, or a leading-dot fraction with exponent). -/
def decimalOk (l : List Char) : Bool :=
  if (l.takeWhile isDigitChar).isEmpty then
    match l with
    | '.' :: r =>
      !(r.takeWhile isDigitChar).isEmpty && expOk (r.dropWhile isDigitChar)
    | _ => false
  else
    match l.dropWhile isDigitChar with
    | [] => true
    | '.' :: r => expOk (r.dropWhile isDigitChar)
    | r => expOk r

def unsignedOk (l : List Char) : Bool :=
  l == "Infinity".data || decimalOk l

def signedOk (l : List Char) : Bool := unsignedOk (dropSign l)

/-- Recognise ECMAScript non-decimal integer literals (0x, 0o, 0b forms). -/
def nonDecimalOk : List Char → Bool
  | '0' :: c :: r =>
    ((c == 'x' || c == 'X') && !r.isEmpty && r.all isHexChar) ||
    ((c == 'o' || c == 'O') && !r.isEmpty && r.all isOctChar) ||
    ((c == 'b' || c == 'B') && !r.isEmpty && r.all isBinChar)
  | _ => false

def numericOk (l : List Char) : Bool := signedOk l || nonDecimalOk l

/-- JavaScript `isNaN(s)` for a string argument: `ToNumber(s)` is NaN exactly
when the trimmed string is non-empty and matches no numeric literal form
(the empty / all-whitespace string coerces to 0, hence is not NaN). -/
def isNaNStr (s : String) : Bool :=
  !(trimChars s.data).isEmpty && !numericOk (trimChars s.data)

/-- The value of a plain base-10 digit string (the "integer epoch-ms" form of
the `since` parameter); `none` when the string is not of that shape. -/
def strToNat? (s : String) : Option Nat :=
  if !s.data.isEmpty && s.data.all isDigitChar then
    some (s.data.foldl (fun a c => a * 10 + (c.toNat - 48)) 0)
  else none

/-- JavaScript truthiness of an optional string (absent and empty are falsy). -/
def jsTruthyStr : Option String → Bool
  | none => false
  | some s => s != ""

/-! ## Date.parse on the ECMAScript Date Time String Format

`Date.parse` applied to strings outside this format falls back to
implementation-specific heuristics; such strings are modelled as NaN (`none`).
Date-times without a UTC offset designator are interpreted in the host's local
time zone, which is environment-dependent; the model therefore requires an
explicit `Z` or `±HH:mm` offset on date-time forms. Date-only forms are UTC. -/

/-- Days since the Unix epoch of a proleptic-Gregorian civil date
(the standard civil-from-days inversion; `/` is floor division on `Int`). -/
def daysFromCivil (y m d : Int) : Int :=
  let yr := if m ≤ 2 then y - 1 else y
  let era := yr / 400
  let yoe := yr - era * 400
  let mp := (m + 9) % 12
  let doy := (153 * mp + 2) / 5 + d - 1
  let doe := yoe * 365 + yoe / 4 - yoe / 100 + doy
  era * 146097 + doe - 719468

/-- ECMAScript time-value clip: |t| ≤ 8.64e15 ms, else NaN. -/
def msClip (t : Int) : Option Int :=
  if t.natAbs ≤ 8640000000000000 then some t else none

/-- Epoch milliseconds from civil date, milliseconds-within-day and a UTC
offset in minutes. -/
def epochFromParts (y m d msDay : Nat) (offMin : Int) : Option Int :=
  msClip (daysFromCivil y m d * 86400000 + (msDay : Int) - offMin * 60000)

def digitVal? (c : Char) : Option Nat :=
  if isDigitChar c then some (c.toNat - 48) else none

def take2D : List Char → Option (Nat × List Char)
  | a :: b :: r =>
    match digitVal? a, digitVal? b with
    | some x, some y => some (x * 10 + y, r)
    | _, _ => none
  | _ => none

def take3D : List Char → Option (Nat × List Char)
  | a :: b :: c :: r =>
    match digitVal? a, digitVal? b, digitVal? c with
    | some x, some y, some z => some (x * 100 + y * 10 + z, r)
    | _, _, _ => none
  | _ => none

def take4D : List Char → Option (Nat × List Char)
  | a :: b :: c :: d :: r =>
    match digitVal? a, digitVal? b, digitVal? c, digitVal? d with
    | some x, some y, some z, some w => some (x * 1000 + y * 100 + z * 10 + w, r)
    | _, _, _, _ => none
  | _ => none

def parseOffHM (l : List Char) (sign : Int) : Option Int :=
  match take2D l with
  | some (hh, ':' :: r) =>
    match take2D r with
    | some (mm, []) =>
      if hh ≤ 23 && mm ≤ 59 then some (sign * ((hh : Int) * 60 + mm)) else none
    | _ => none
  | _ => none

/-- UTC offset designator consuming the whole remaining input:
`Z` or `±HH:mm`, as offset minutes. -/
def parseOffMin : List Char → Option Int
  | ['Z'] => some 0
  | '+' :: r => parseOffHM r 1
  | '-' :: r => parseOffHM r (-1)
  | _ => none

def mkTimeOfDay (hh mm ss ms : Nat) (off : Int) : Option (Nat × Int) :=
  if hh = 24 && !(mm = 0 && ss = 0 && ms = 0) then none
  else some (hh * 3600000 + mm * 60000 + ss * 1000 + ms, off)

/-- Time part `HH:mm[:ss[.sss]]` followed by a mandatory offset designator;
yields milliseconds within the day and the offset in minutes. -/
def parseTimePart (l : List Char) : Option (Nat × Int) :=
  match take2D l with
  | some (hh, ':' :: r1) =>
    match take2D r1 with
    | some (mm, rest) =>
      if hh ≤ 24 && mm ≤ 59 then
        match rest with
        | ':' :: r2 =>
          match take2D r2 with
          | some (ss, rest2) =>
            if ss ≤ 59 then
              match rest2 with
              | '.' :: r3 =>
                match take3D r3 with
                | some (ms, rest3) =>
                  match parseOffMin rest3 with
                  | some off => mkTimeOfDay hh mm ss ms off
                  | none => none
                | none => none
              | _ =>
                match parseOffMin rest2 with
                | some off => mkTimeOfDay hh mm ss 0 off
                | none => none
            else none
          | none => none
        | _ =>
          match parseOffMin rest with
          | some off => mkTimeOfDay hh mm 0 0 off
          | none => none
      else none
    | none => none
  | _ => none

def withTimePart (y m d : Nat) (tr : List Char) : Option Int :=
  match parseTimePart tr with
  | some (msDay, off) => epochFromParts y m d msDay off
  | none => none

/-- `YYYY[-MM[-DD]][THH:mm[:ss[.sss]](Z|±HH:mm)]`. -/
def dateParseChars (l : List Char) : Option Int :=
  match take4D l with
  | some (y, rest) =>
    match rest with
    | [] => epochFromParts y 1 1 0 0
    | 'T' :: tr => withTimePart y 1 1 tr
    | '-' :: r1 =>
      match take2D r1 with
      | some (m, rest2) =>
        if 1 ≤ m && m ≤ 12 then
          match rest2 with
          | [] => epochFromParts y m 1 0 0
          | 'T' :: tr => withTimePart y m 1 tr
          | '-' :: r2 =>
            match take2D r2 with
            | some (d, rest3) =>
              if 1 ≤ d && d ≤ 31 then
                match rest3 with
                | [] => epochFromParts y m d 0 0
                | 'T' :: tr => withTimePart y m d tr
                | _ => none
              else none
            | none => none
          | _ => none
        else none
      | none => none
    | _ => none
  | none => none

/-- JavaScript `Date.parse` (`none` = NaN). -/
def dateParse (s : String) : Option Int := dateParseChars s.data

/-! ## The live-connection interval counter

Modelled from the spec: the `IntervalCounter` class lives in
`src/lib/eventstreams-util.js`, which is not part of the provided sources;
spec section 4.3 defines its interface — `get(key)` returns the current count
or 0 for an untouched key, `increment(key)` adds one, `decrement(key)`
subtracts one clamping at zero, and the periodic flush merely snapshots the
counts without mutating them. The state is modelled as a total map from
counter keys to counts (truncated `Nat` subtraction realises the clamp). -/

abbrev CounterState := String → Nat

def incrementKey (c : CounterState) (k : String) : CounterState :=
  fun q => if q = k then c q + 1 else c q

def decrementKey (c : CounterState) (k : String) : CounterState :=
  fun q => if q = k then c q - 1 else c q

/-- Apply `increment` once for each key of the list, in order. -/
def applyIncs (c : CounterState) : List String → CounterState
  | [] => c
  | k :: ks => applyIncs (incrementKey c k) ks

/-- Apply `decrement` once for each key of the list, in order. -/
def applyDecs (c : CounterState) : List String → CounterState
  | [] => c
  | k :: ks => applyDecs (decrementKey c k) ks

/-- Occurrence count of a key in a list of keys. -/
def countStr (k : String) : List String → Nat
  | [] => 0
  | x :: l => (if x = k then 1 else 0) + countStr k l

/-! ## Configuration, request and result types -/

/-- One entry of the stream catalog (`app.conf.streams[name]`). -/
structure StreamSpec where
  topics : List String
deriving DecidableEq

/-- The configuration surface the route handler reads.  A JavaScript
`client_ip_connection_limit` of `undefined` and of `0` are both falsy and
behave identically in the handler, so the absent limit is modelled as 0.
`workerMetricPrefix` stands for the `hostname.worker_id` string. -/
structure Conf where
  workerMetricPrefix : String
  client_ip_connection_limit : Nat
  streams : List (String × StreamSpec)

/-- The parts of the inbound request the handler reads.  Headers that were
not sent are `none`; `req.query.since` likewise. -/
structure Request where
  streamsParam : String
  since : Option String
  xClientIp : Option String
  contentType : Option String

/-- The structured error payload of `HTTPError`. -/
structure HTTPErr where
  status : Nat
  type : String
  title : String
  detail : String
deriving DecidableEq

/-- The options and timestamp argument handed to the `kafkaSse` engine call
(the fields the admission layer computes; logger and kafka config carry no
admission-relevant content).  `atTimestamp` is either the raw `since` string
passed through unchanged (when its numeric coercion is not NaN, or it is
empty) or the number produced by `Date.parse`. -/
structure KafkaSseArgs where
  topics : List String
  allowedTopics : List String
  useTimestampForId : Bool
  responseHeaders : List (String × String)
  disableSSEFormatting : Bool
  atTimestamp : Option (String ⊕ Int)
deriving DecidableEq

/-- The bookkeeping of one admitted connection: the counter keys incremented
at admission, the keys the registered close handler will decrement, the
streaming-engine arguments, and the counter state after admission. -/
structure Session where
  incremented : List String
  onCloseDecrements : List String
  sse : KafkaSseArgs
  counterAfter : CounterState

/-- Outcome of one request: a thrown `HTTPError` together with the counter
state at the point of the throw, or an admitted session. -/
inductive RouteResult where
  | rejected (err : HTTPErr) (counter : CounterState)
  | admitted (sess : Session)

/-! ## The error values thrown by the handler -/

def missingClientIdentityError : HTTPErr :=
  { status := 400
    type := "bad_request"
    title := "Missing Required X-Client-IP Header"
    detail := "X-Client-IP is a required request header" }

def tooManyRequestsError : HTTPErr :=
  { status := 429
    type := "too_many_requests"
    title := "Too Many Concurrent Connections From Your Client IP"
    detail := "Your HTTP client is likely opening too many concurrent connections." }

/-- `Array.prototype.join(',')`. -/
def joinComma : List String → String
  | [] => ""
  | [s] => s
  | s :: rest => s ++ "," ++ joinComma rest

/-- A single-quote character as a string (U+0027). -/
def sq : String := String.mk [Char.ofNat 39]

def streamNotFoundError (missing : List String) : HTTPErr :=
  { status := 400
    type := "not_found"
    title := "Stream Not Found"
    detail := "Invalid streams: " ++ joinComma missing }

def invalidTimestampError (raw : String) : HTTPErr :=
  { status := 400
    type := "invalid_timestamp"
    title := "Invalid timestamp"
    detail := "since timestamp is not a UTC milliseconds unix epoch and was not parseable: "
      ++ sq ++ raw ++ sq }

/-! ## The route handler -/

/-- `String.prototype.split(',')` (never yields an empty list; the empty
string splits to `[""]`). -/
def splitCommaChars : List Char → List (List Char)
  | [] => [[]]
  | c :: cs =>
    if c = ',' then [] :: splitCommaChars cs
    else
      match splitCommaChars cs with
      | [] => [[c]]
      | h :: t => (c :: h) :: t

def splitComma (s : String) : List String := (splitCommaChars s.data).map String.mk

/-- The property names a plain JavaScript object inherits from
`Object.prototype`, all of which the `in` operator reports as present on any
plain object — such as the YAML-parsed `app.conf.streams` (`__proto__` is an
inherited accessor, the rest are methods plus `constructor`). -/
def objectProtoProps : List String :=
  ["constructor", "hasOwnProperty", "isPrototypeOf", "propertyIsEnumerable",
   "toLocaleString", "toString", "valueOf", "__proto__", "__defineGetter__",
   "__defineSetter__", "__lookupGetter__", "__lookupSetter__"]

/-- `stream in app.conf.streams`: the JavaScript `in` operator finds the
configured catalog keys (own properties) and also every property the plain
config object inherits from `Object.prototype`. -/
def catalogHas (conf : Conf) (s : String) : Bool :=
  (conf.streams.lookup s).isSome || objectProtoProps.contains s

/-- `app.conf.streams[stream].topics` for a name that passed the `in` check.
For a configured name this is its topic list.  For a name that passed only
via the prototype chain, `app.conf.streams[s]` is the inherited function or
accessor and `.topics` is `undefined`; lodash `flatMap` then keeps a single
`undefined` entry in the topic array.  The string-typed model renders that
degenerate contribution as no topics (the admission bookkeeping the claims
about admitted runs measure — keys incremented and decremented per name
occurrence — is unaffected by it). -/
def catalogTopics (conf : Conf) (s : String) : List String :=
  match conf.streams.lookup s with
  | some sp => sp.topics
  | none => []

/-- Truthiness of `app.conf.client_ip_connection_limit`. -/
def limitActive (conf : Conf) : Bool := conf.client_ip_connection_limit != 0

def streamKey (conf : Conf) (s : String) : String :=
  conf.workerMetricPrefix ++ ".connections.stream." ++ s

def clientKey (conf : Conf) (ip : String) : String :=
  conf.workerMetricPrefix ++ ".connections.client_ip." ++ ip

/-- The `clientConnectionMetric` key for the request's `X-Client-IP` header
(only ever used under a truthy header). -/
def clientMetricOf (conf : Conf) (req : Request) : String :=
  clientKey conf (req.xClientIp.getD "")

/-- `streams.filter(stream => !(stream in app.conf.streams))`. -/
def invalidStreamsOf (conf : Conf) (req : Request) : List String :=
  (splitComma req.streamsParam).filter (fun s => !catalogHas conf s)

/-- The `since` handling of the handler: the raw value is kept unless it is
truthy and its numeric coercion is NaN, in which case `Date.parse` replaces
it; a still-NaN defined value throws the invalid-timestamp error. -/
def tsResolve (since : Option String) : Except HTTPErr (Option (String ⊕ Int)) :=
  match since with
  | none => .ok none
  | some s =>
    if s != "" && isNaNStr s then
      match dateParse s with
      | some n => .ok (some (.inr n))
      | none => .error (invalidTimestampError s)
    else .ok (some (.inl s))

/-- The `content-type` echo and the SSE-formatting switch. -/
def respHeaders (req : Request) : List (String × String) :=
  match req.contentType with
  | some ct => [("content-type", ct)]
  | none => []

def strStartsChars : List Char → List Char → Bool
  | [], _ => true
  | _ :: _, [] => false
  | p :: ps, c :: cs => p == c && strStartsChars ps cs

/-- `String.prototype.startsWith`. -/
def strStarts (p s : String) : Bool := strStartsChars p.data s.data

def sseDisabled (req : Request) : Bool :=
  match req.contentType with
  | some ct => strStarts "application/json" ct
  | none => false

/-- The session built once all validation has succeeded: stream keys are
incremented in request order, then the client key when one was established;
the close handler decrements exactly the same keys in the same order. -/
def mkSession (conf : Conf) (req : Request) (counter : CounterState)
    (clientConnectionMetric : Option String) (atTimestamp : Option (String ⊕ Int)) :
    Session :=
  let streams := splitComma req.streamsParam
  let topics := (streams.map (catalogTopics conf)).flatten
  let incs := streams.map (streamKey conf) ++ clientConnectionMetric.toList
  { incremented := incs
    onCloseDecrements := incs
    sse :=
      { topics := topics
        allowedTopics := topics
        useTimestampForId := true
        responseHeaders := respHeaders req
        disableSSEFormatting := sseDisabled req
        atTimestamp := atTimestamp }
    counterAfter := applyIncs counter incs }

/-- The handler body after the client-ip limit block: stream validation,
timestamp resolution, then admission. -/
def streamRouteBody (conf : Conf) (req : Request) (counter : CounterState)
    (clientConnectionMetric : Option String) : RouteResult :=
  if (invalidStreamsOf conf req).isEmpty then
    match tsResolve req.since with
    | .error e => .rejected e counter
    | .ok ts => .admitted (mkSession conf req counter clientConnectionMetric ts)
  else
    .rejected (streamNotFoundError (invalidStreamsOf conf req)) counter

/-- The `router.get` handler of src/routes/stream.js. -/
def streamRoute (conf : Conf) (req : Request) (counter : CounterState) : RouteResult :=
  if limitActive conf then
    if !jsTruthyStr req.xClientIp then
      .rejected missingClientIdentityError counter
    else if conf.client_ip_connection_limit ≤ counter (clientMetricOf conf req) then
      .rejected tooManyRequestsError counter
    else
      streamRouteBody conf req counter (some (clientMetricOf conf req))
  else
    streamRouteBody conf req counter none

/-! ## Observations on a route result -/

def RouteResult.isAdmitted : RouteResult → Bool
  | .rejected _ _ => false
  | .admitted _ => true

def RouteResult.rejWith? : RouteResult → Option HTTPErr
  | .rejected e _ => some e
  | .admitted _ => none

/-- The counter state after the handler ran (at the throw for rejections,
after the admission increments otherwise). -/
def RouteResult.counterOut : RouteResult → CounterState
  | .rejected _ c => c
  | .admitted s => s.counterAfter

def RouteResult.incsOf? : RouteResult → Option (List String)
  | .rejected _ _ => none
  | .admitted s => some s.incremented

def RouteResult.decsOf? : RouteResult → Option (List String)
  | .rejected _ _ => none
  | .admitted s => some s.onCloseDecrements

def RouteResult.topicsOf? : RouteResult → Option (List String)
  | .rejected _ _ => none
  | .admitted s => some s.sse.topics

def RouteResult.allowedOf? : RouteResult → Option (List String)
  | .rejected _ _ => none
  | .admitted s => some s.sse.allowedTopics

def RouteResult.atTsOf? : RouteResult → Option (Option (String ⊕ Int))
  | .rejected _ _ => none
  | .admitted s => some s.sse.atTimestamp

def RouteResult.sseOff? : RouteResult → Option Bool
  | .rejected _ _ => none
  | .admitted s => some s.sse.disableSSEFormatting

/-- The counter state once the close handler has fired (identity for
rejected requests, which register no close handler mutation). -/
def RouteResult.closeState : RouteResult → CounterState
  | .rejected _ c => c
  | .admitted s => applyDecs s.counterAfter s.onCloseDecrements

/-- Occurrence count of a key inside an optional key list. -/
def optCount (k : String) : Option (List String) → Nat
  | none => 0
  | some l => countStr k l

/-- The `clientConnectionMetric` binding as it stands after the limit block:
set exactly when a client-ip limit is configured. -/
def clientMetricOpt (conf : Conf) (req : Request) : Option String :=
  if limitActive conf then some (clientMetricOf conf req) else none

/-- The client-identity gate of the handler: no limit configured, or a truthy
header whose current count is below the limit. -/
def clientGatePasses (conf : Conf) (req : Request) (counter : CounterState) : Bool :=
  !limitActive conf ||
    (jsTruthyStr req.xClientIp &&
      decide (counter (clientMetricOf conf req) < conf.client_ip_connection_limit))

/-! ## Counter arithmetic lemmas -/

theorem applyIncs_apply (L : List String) (c : CounterState) (k : String) :
    applyIncs c L k = c k + countStr k L := by
  induction L generalizing c with
  | nil => simp [applyIncs, countStr]
  | cons x l ih =>
    simp only [applyIncs, countStr]
    rw [ih]
    by_cases h : k = x
    · subst h
      simp [incrementKey]
      omega
    · have hx : x ≠ k := fun hh => h hh.symm
      simp [incrementKey, h, hx]

theorem applyDecs_apply (L : List String) (c : CounterState) (k : String)
    (h : countStr k L ≤ c k) : applyDecs c L k = c k - countStr k L := by
  induction L generalizing c with
  | nil => simp [applyDecs, countStr]
  | cons x l ih =>
    have hdec : ∀ q, decrementKey c x q = if q = x then c q - 1 else c q := fun _ => rfl
    simp only [applyDecs, countStr] at h ⊢
    by_cases hx : k = x
    · subst hx
      rw [if_pos rfl] at h ⊢
      have hpre : countStr k l ≤ decrementKey c k k := by
        rw [hdec k, if_pos rfl]; omega
      rw [ih _ hpre, hdec k, if_pos rfl]
      omega
    · have hx' : x ≠ k := fun hh => hx hh.symm
      rw [if_neg hx'] at h ⊢
      have hpre : countStr k l ≤ decrementKey c x k := by
        rw [hdec k, if_neg hx]; omega
      rw [ih _ hpre, hdec k, if_neg hx]
      omega

/-- Applying the decrements of a key list right after its increments restores
the original count of every key (no clamping is ever hit). -/
theorem applyDecs_applyIncs (L : List String) (c : CounterState) (k : String) :
    applyDecs (applyIncs c L) L k = c k := by
  rw [applyDecs_apply L _ k (by rw [applyIncs_apply]; omega), applyIncs_apply]
  omega

theorem countStr_append (k : String) (l1 l2 : List String) :
    countStr k (l1 ++ l2) = countStr k l1 + countStr k l2 := by
  induction l1 with
  | nil => simp [countStr]
  | cons x l ih => simp [countStr, ih]; omega

theorem countStr_map_inj (f : String → String) (s : String) (L : List String)
    (hf : ∀ a b, f a = f b → a = b) :
    countStr (f s) (L.map f) = countStr s L := by
  induction L with
  | nil => rfl
  | cons x l ih =>
    simp only [List.map_cons, countStr, ih]
    by_cases h : x = s
    · subst h; simp
    · rw [if_neg h, if_neg (fun hh => h (hf x s hh))]

theorem countStr_flatten (t : String) (g : String → List String) (L : List String) :
    countStr t (L.map g).flatten = (L.map (fun x => countStr t (g x))).sum := by
  induction L with
  | nil => rfl
  | cons x l ih => simp [countStr_append, ih]

theorem countStr_mul_le_sum (s t : String) (g : String → List String) (L : List String) :
    countStr s L * countStr t (g s) ≤ (L.map (fun x => countStr t (g x))).sum := by
  induction L with
  | nil => simp [countStr]
  | cons x l ih =>
    simp only [countStr, List.map_cons, List.sum_cons]
    by_cases h : x = s
    · subst h
      rw [if_pos rfl, Nat.add_mul, Nat.one_mul]
      omega
    · rw [if_neg h, Nat.zero_add]
      omega

/-! ## Counter-key disjointness -/

theorem string_data_inj {x y : String} (h : x.data = y.data) : x = y := by
  cases x; cases y; exact congrArg String.mk h

theorem streamKey_inj (conf : Conf) (a b : String)
    (h : streamKey conf a = streamKey conf b) : a = b := by
  unfold streamKey at h
  have hd := congrArg String.data h
  simp only [String.data_append, List.append_assoc] at hd
  exact string_data_inj (List.append_cancel_left (List.append_cancel_left hd))

theorem streamKey_ne_clientKey (conf : Conf) (a ip : String) :
    streamKey conf a ≠ clientKey conf ip := by
  intro h
  unfold streamKey clientKey at h
  have hd := congrArg String.data h
  simp only [String.data_append, List.append_assoc] at hd
  have hm := List.append_cancel_left hd
  simp at hm

/-! ## Digit strings coerce to numbers (are not NaN) -/

theorem digit_not_ws (c : Char) (h : isDigitChar c = true) : jsWhitespace c = false := by
  unfold isDigitChar at h
  unfold jsWhitespace
  simp only [Bool.and_eq_true, decide_eq_true_eq] at h
  simp only [Bool.or_eq_false_iff, decide_eq_false_iff_not]
  omega

theorem dropWhile_not (p : Char → Bool) (l : List Char) (h : ∀ c ∈ l, p c = false) :
    l.dropWhile p = l := by
  cases l with
  | nil => rfl
  | cons c cs => simp [List.dropWhile_cons, h c (by simp)]

theorem trim_digits (l : List Char) (hall : ∀ c ∈ l, isDigitChar c = true) :
    trimChars l = l := by
  unfold trimChars
  rw [dropWhile_not _ _ (fun c hc => digit_not_ws c (hall c hc))]
  rw [dropWhile_not _ _ (fun c hc => digit_not_ws c (hall c (List.mem_reverse.mp hc)))]
  exact List.reverse_reverse l

theorem dropSign_digits (l : List Char) (hall : ∀ c ∈ l, isDigitChar c = true) :
    dropSign l = l := by
  cases l with
  | nil => rfl
  | cons c cs =>
    have hc := hall c (by simp)
    have h1 : (c = '+' || c = '-') = false := by
      simp only [Bool.or_eq_false_iff, decide_eq_false_iff_not]
      constructor <;> intro h <;> subst h <;> exact absurd hc (by decide)
    simp [dropSign, h1]

theorem decimalOk_digits (l : List Char) (hne : l ≠ [])
    (hall : ∀ c ∈ l, isDigitChar c = true) : decimalOk l = true := by
  have ht : l.takeWhile isDigitChar = l := List.takeWhile_eq_self_iff.mpr hall
  have hd : l.dropWhile isDigitChar = [] := List.dropWhile_eq_nil_iff.mpr hall
  unfold decimalOk
  rw [ht, hd]
  cases l with
  | nil => exact absurd rfl hne
  | cons c cs => rfl

theorem numericOk_digits (l : List Char) (hne : l ≠ [])
    (hall : ∀ c ∈ l, isDigitChar c = true) : numericOk l = true := by
  unfold numericOk signedOk unsignedOk
  rw [dropSign_digits l hall, decimalOk_digits l hne hall]
  simp

/-- A non-empty all-digit string coerces to a number: `isNaN` is false on it. -/
theorem digits_not_nan (s : String) (hne : s.data ≠ [])
    (hall : s.data.all isDigitChar = true) : isNaNStr s = false := by
  have hall' : ∀ c ∈ s.data, isDigitChar c = true := by
    intro c hc
    exact List.all_eq_true.mp hall c hc
  unfold isNaNStr
  rw [trim_digits s.data hall', numericOk_digits s.data hne hall']
  simp

/-! ## Timestamp-resolution lemmas -/

theorem tsResolve_ok_raw (s : String) (h : (s != "" && isNaNStr s) = false) :
    tsResolve (some s) = .ok (some (.inl s)) := by
  simp only [tsResolve, h, Bool.false_eq_true, if_false]

theorem tsResolve_ok_date (s : String) (n : Int)
    (h1 : (s != "" && isNaNStr s) = true) (h2 : dateParse s = some n) :
    tsResolve (some s) = .ok (some (.inr n)) := by
  simp only [tsResolve, h1, if_true, h2]

theorem tsResolve_error_of (s : String)
    (h1 : (s != "" && isNaNStr s) = true) (h2 : dateParse s = none) :
    tsResolve (some s) = .error (invalidTimestampError s) := by
  simp only [tsResolve, h1, if_true, h2]

theorem tsResolve_error_inv (s : String) (e : HTTPErr)
    (h : tsResolve (some s) = .error e) :
    e = invalidTimestampError s ∧ (s != "" && isNaNStr s) = true ∧ dateParse s = none := by
  unfold tsResolve at h
  cases hc : (s != "" && isNaNStr s) with
  | false => simp [hc] at h
  | true =>
    simp only [hc, if_true] at h
    cases hd : dateParse s with
    | none =>
      rw [hd] at h
      cases h
      exact ⟨rfl, rfl, rfl⟩
    | some n => rw [hd] at h; cases h

/-! ## Route-handler inversion lemmas -/

theorem body_rejected_state (conf : Conf) (req : Request) (counter : CounterState)
    (cm : Option String) (e : HTTPErr) (st : CounterState)
    (h : streamRouteBody conf req counter cm = .rejected e st) : st = counter := by
  unfold streamRouteBody at h
  split at h
  · split at h
    · cases h; rfl
    · cases h
  · cases h; rfl

theorem route_rejected_state (conf : Conf) (req : Request) (counter : CounterState)
    (e : HTTPErr) (st : CounterState)
    (h : streamRoute conf req counter = .rejected e st) : st = counter := by
  unfold streamRoute at h
  split at h
  · split at h
    · cases h; rfl
    · split at h
      · cases h; rfl
      · exact body_rejected_state conf req counter _ e st h
  · exact body_rejected_state conf req counter _ e st h

theorem body_rejected_inv (conf : Conf) (req : Request) (counter : CounterState)
    (cm : Option String) (e : HTTPErr) (st : CounterState)
    (h : streamRouteBody conf req counter cm = .rejected e st) :
    (¬(invalidStreamsOf conf req).isEmpty = true ∧
      e = streamNotFoundError (invalidStreamsOf conf req)) ∨
    ((invalidStreamsOf conf req).isEmpty = true ∧
      ∃ s, req.since = some s ∧ e = invalidTimestampError s) := by
  unfold streamRouteBody at h
  split at h
  next hE =>
    right
    refine ⟨hE, ?_⟩
    split at h
    next e2 hts =>
      cases h
      cases hs : req.since with
      | none => rw [hs] at hts; simp [tsResolve] at hts
      | some s =>
        rw [hs] at hts
        obtain ⟨he, -, -⟩ := tsResolve_error_inv s _ hts
        exact ⟨s, rfl, he⟩
    next ts hts => cases h
  next hE =>
    cases h
    exact Or.inl ⟨hE, rfl⟩

theorem streamRoute_gate (conf : Conf) (req : Request) (counter : CounterState)
    (h : clientGatePasses conf req counter = true) :
    streamRoute conf req counter =
      streamRouteBody conf req counter (clientMetricOpt conf req) := by
  unfold streamRoute clientGatePasses at *
  cases hl : limitActive conf with
  | false => simp [hl, clientMetricOpt]
  | true =>
    rw [hl] at h
    simp only [Bool.not_true, Bool.false_or, Bool.and_eq_true, decide_eq_true_eq] at h
    obtain ⟨h1, h2⟩ := h
    simp only [clientMetricOpt, hl, if_true, h1, Bool.not_true, Bool.false_eq_true, if_false]
    rw [if_neg (Nat.not_le.mpr h2)]

theorem route_admitted_gate (conf : Conf) (req : Request) (counter : CounterState)
    (h : (streamRoute conf req counter).isAdmitted = true) :
    clientGatePasses conf req counter = true := by
  unfold streamRoute at h
  unfold clientGatePasses
  cases hl : limitActive conf with
  | false => simp
  | true =>
    rw [hl] at h
    simp only [hl, Bool.not_true, Bool.false_or, Bool.and_eq_true, decide_eq_true_eq]
    cases ht : jsTruthyStr req.xClientIp with
    | false => rw [ht] at h; simp [RouteResult.isAdmitted] at h
    | true =>
      rw [ht] at h
      simp only [Bool.not_true, Bool.false_eq_true, if_false] at h
      refine ⟨rfl, ?_⟩
      by_cases hle : conf.client_ip_connection_limit ≤ counter (clientMetricOf conf req)
      · rw [if_pos hle] at h; simp [RouteResult.isAdmitted] at h
      · omega

theorem body_admitted_inv (conf : Conf) (req : Request) (counter : CounterState)
    (cm : Option String)
    (h : (streamRouteBody conf req counter cm).isAdmitted = true) :
    (invalidStreamsOf conf req).isEmpty = true ∧
    ∃ ts, tsResolve req.since = .ok ts ∧
      streamRouteBody conf req counter cm = .admitted (mkSession conf req counter cm ts) := by
  unfold streamRouteBody at h ⊢
  split at h
  next hE =>
    refine ⟨hE, ?_⟩
    split at h
    next e2 hts => simp [RouteResult.isAdmitted] at h
    next ts hts => exact ⟨ts, hts, by rw [if_pos hE]⟩
  next hE => simp [RouteResult.isAdmitted] at h

/-- Full inversion of an admitted run: the gate passed, all streams were
valid, the timestamp resolved, and the result is the session built by
`mkSession` with the client key recorded exactly when a limit is active. -/
theorem route_admitted_inv (conf : Conf) (req : Request) (counter : CounterState)
    (h : (streamRoute conf req counter).isAdmitted = true) :
    clientGatePasses conf req counter = true ∧
    (invalidStreamsOf conf req).isEmpty = true ∧
    ∃ ts, tsResolve req.since = .ok ts ∧
      streamRoute conf req counter =
        .admitted (mkSession conf req counter (clientMetricOpt conf req) ts) := by
  have hg := route_admitted_gate conf req counter h
  have he := streamRoute_gate conf req counter hg
  rw [he] at h
  obtain ⟨h1, ts, h2, h3⟩ := body_admitted_inv conf req counter _ h
  exact ⟨hg, h1, ts, h2, by rw [he, h3]⟩

/-! ## Concrete fixtures for the witnesses -/

def confW : Conf :=
  { workerMetricPrefix := "host.0"
    client_ip_connection_limit := 2
    streams := [("articles", ⟨["topic.articles"]⟩), ("pages", ⟨["topic.articles"]⟩),
                ("edits", ⟨["topic.edits", "topic.extra"]⟩)] }

def cnt0 : CounterState := fun _ => 0

def cntHot : CounterState :=
  fun k => if k = "host.0.connections.client_ip.10.0.0.1" then 2 else 0

def reqMain : Request :=
  { streamsParam := "articles,edits"
    since := some "1600000000000"
    xClientIp := some "10.0.0.1"
    contentType := some "application/json; charset=utf-8" }

def reqDup : Request := { reqMain with streamsParam := "articles,articles" }

def reqShared : Request := { reqMain with streamsParam := "articles,pages", since := none }

def reqInf : Request := { reqMain with since := some "Infinity" }

def reqBadTs : Request := { reqMain with since := some "not-a-real-date" }

def reqBadStream : Request := { reqMain with streamsParam := "articles,unknownstream" }

def reqProto : Request := { reqMain with streamsParam := "articles,toString" }

def reqNoHdr : Request :=
  { reqMain with xClientIp := none, streamsParam := "nosuch", since := some "not-a-real-date" }

def reqIso : Request := { reqMain with since := some "2020-09-13T12:26:40Z" }

/-! ## The claims -/

/-- Claim C1: for every admitted connection, the registered close handler
decrements exactly the counter keys that were incremented at admission — the
decrement list is the increment list entry for entry, so each incremented key
occurrence is decremented exactly once (not zero times, not more than once);
consequently firing the close handler returns every counter key to its
pre-admission value.  (The handler is registered once per response; a single
close event fires it once.) -/
theorem admitted_release_exactly_once (conf : Conf) (req : Request) (counter : CounterState)
    (h : (streamRoute conf req counter).isAdmitted = true) :
    (streamRoute conf req counter).decsOf? = (streamRoute conf req counter).incsOf? ∧
    ∀ k, (streamRoute conf req counter).closeState k = counter k := by
  obtain ⟨-, -, ts, -, heq⟩ := route_admitted_inv conf req counter h
  rw [heq]
  refine ⟨rfl, fun k => ?_⟩
  exact applyDecs_applyIncs
    ((splitComma req.streamsParam).map (streamKey conf) ++ (clientMetricOpt conf req).toList)
    counter k

/-- Witness for C1: a concrete admitted request, its hypothesis discharged by
evaluation. -/
theorem admitted_release_exactly_once_witness :
    (streamRoute confW reqMain cnt0).isAdmitted = true ∧
    (streamRoute confW reqMain cnt0).decsOf? = (streamRoute confW reqMain cnt0).incsOf? ∧
    (streamRoute confW reqMain cnt0).closeState "host.0.connections.stream.articles" =
      cnt0 "host.0.connections.stream.articles" :=
  ⟨rfl, (admitted_release_exactly_once confW reqMain cnt0 rfl).1,
    (admitted_release_exactly_once confW reqMain cnt0 rfl).2 _⟩

/-- Claim C2: every validation rejection (missing identity, limit exceeded,
stream not found, invalid timestamp) leaves every counter key unchanged: the
counter state at the throw is the pre-request state, key for key. -/
theorem rejection_no_mutation (conf : Conf) (req : Request) (counter : CounterState)
    (e : HTTPErr) (st : CounterState)
    (h : streamRoute conf req counter = .rejected e st) :
    ∀ k, st k = counter k := by
  intro k
  rw [route_rejected_state conf req counter e st h]

/-- Witness for C2: a concretely rejected request (missing identity header
while a limit is configured). -/
theorem rejection_no_mutation_witness :
    cnt0 "host.0.connections.stream.nosuch" = cnt0 "host.0.connections.stream.nosuch" :=
  rejection_no_mutation confW reqNoHdr cnt0 missingClientIdentityError cnt0 rfl
    "host.0.connections.stream.nosuch"

/-- Claim C5: with a client-ip limit configured and the client's counter
already at or above the limit, the request is rejected with the 429
too-many-requests error and the client's counter still reads the same
value afterwards. -/
theorem client_limit_enforced (conf : Conf) (req : Request) (counter : CounterState)
    (ip : String) (hl : limitActive conf = true)
    (hip : req.xClientIp = some ip) (hne : (ip != "") = true)
    (hcount : conf.client_ip_connection_limit ≤ counter (clientKey conf ip)) :
    streamRoute conf req counter = .rejected tooManyRequestsError counter ∧
    tooManyRequestsError.status = 429 ∧
    (streamRoute conf req counter).counterOut (clientKey conf ip) =
      counter (clientKey conf ip) := by
  have hcm : clientMetricOf conf req = clientKey conf ip := by
    simp [clientMetricOf, hip]
  have htr : jsTruthyStr req.xClientIp = true := by rw [hip]; exact hne
  have hmain : streamRoute conf req counter = .rejected tooManyRequestsError counter := by
    unfold streamRoute
    rw [if_pos hl, if_neg (by simp [htr]), hcm, if_pos hcount]
  exact ⟨hmain, rfl, by rw [hmain]; rfl⟩

/-- Witness for C5: limit 2 and a counter already reading 2 for the client. -/
theorem client_limit_enforced_witness :
    streamRoute confW reqMain cntHot = .rejected tooManyRequestsError cntHot ∧
    cntHot (clientKey confW "10.0.0.1") = 2 :=
  ⟨(client_limit_enforced confW reqMain cntHot "10.0.0.1" rfl rfl rfl (by decide)).1, rfl⟩

/-- Claim C7: with a limit configured and no truthy client-identity header,
the request is rejected with the missing-identity error regardless of the
stream list and of the since parameter (both universally quantified here),
and the counter state at the throw is the untouched input state. -/
theorem missing_identity_preempts (conf : Conf) (req : Request) (counter : CounterState)
    (hl : limitActive conf = true) (hh : jsTruthyStr req.xClientIp = false) :
    streamRoute conf req counter = .rejected missingClientIdentityError counter := by
  unfold streamRoute
  rw [if_pos hl, if_pos (by simp [hh])]

/-- Witness for C7 (Scenario F): header absent while both the stream list and
the since value are invalid — the missing-identity error still wins. -/
theorem missing_identity_preempts_witness :
    streamRoute confW reqNoHdr cnt0 = .rejected missingClientIdentityError cnt0 ∧
    invalidStreamsOf confW reqNoHdr = ["nosuch"] ∧
    isNaNStr "not-a-real-date" = true :=
  ⟨missing_identity_preempts confW reqNoHdr cnt0 rfl rfl, by decide, by decide⟩

/-- Claim C6 (code bug): validating with the JavaScript `in` operator admits
unconfigured names that `Object.prototype` supplies.  At the failing input
`articles,toString` (catalog without `toString`): `toString` is not a
configured catalog key, yet the `in` check finds it, so it is never collected
into `invalidStreams` and the request is admitted with no StreamNotFound
error — whereas the claim (and the code's own comment, "Ensure all requested
streams are available") requires rejection with a detail naming it.  A
genuinely unknown plain name (Scenario B) is rejected with the detail naming
exactly it, the behaviour the claim intends for every missing entry. -/
theorem proto_stream_name_admitted :
    (confW.streams.lookup "toString").isSome = false ∧
    catalogHas confW "toString" = true ∧
    invalidStreamsOf confW reqProto = [] ∧
    (streamRoute confW reqProto cnt0).isAdmitted = true ∧
    (streamRoute confW reqBadStream cnt0).rejWith? =
      some (streamNotFoundError ["unknownstream"]) ∧
    (streamNotFoundError ["unknownstream"]).detail = "Invalid streams: unknownstream" :=
  ⟨by decide, by decide, by decide, rfl, rfl, rfl⟩

/-- Claim C4 (amended): with the client gate passing and all streams valid,
the request is rejected with the invalid-timestamp error (whose detail echoes
the raw string) exactly when `since` is present, non-empty, its JavaScript
numeric coercion is NaN, and `Date.parse` also yields NaN; an absent `since`
admits.  (The original claim — rejection whenever neither base-10-integer
parsing nor date parsing yields a finite number — is refuted by
`since=Infinity`, see the counterexample.) -/
theorem invalid_timestamp_characterization (conf : Conf) (req : Request)
    (counter : CounterState)
    (hgate : clientGatePasses conf req counter = true)
    (hstreams : invalidStreamsOf conf req = []) :
    (∀ s, req.since = some s →
      (streamRoute conf req counter = .rejected (invalidTimestampError s) counter ↔
        (s ≠ "" ∧ isNaNStr s = true ∧ dateParse s = none))) ∧
    (req.since = none → (streamRoute conf req counter).isAdmitted = true) := by
  rw [streamRoute_gate conf req counter hgate]
  have hE : (invalidStreamsOf conf req).isEmpty = true := by simp [hstreams]
  constructor
  · intro s hs
    constructor
    · intro h
      unfold streamRouteBody at h
      rw [if_pos hE, hs] at h
      cases hts : tsResolve (some s) with
      | error e =>
        obtain ⟨-, hcond, hd⟩ := tsResolve_error_inv s e hts
        simp only [Bool.and_eq_true, bne_iff_ne] at hcond
        exact ⟨hcond.1, hcond.2, hd⟩
      | ok ts => rw [hts] at h; cases h
    · rintro ⟨h1, h2, h3⟩
      unfold streamRouteBody
      rw [if_pos hE, hs,
        tsResolve_error_of s (by simp only [Bool.and_eq_true, bne_iff_ne]; exact ⟨h1, h2⟩) h3]
  · intro hn
    unfold streamRouteBody
    rw [if_pos hE, hn]
    rfl

/-- Witness for C4 (Scenario E): `since=not-a-real-date` is rejected with the
invalid-timestamp error, whose detail echoes the raw string. -/
theorem invalid_timestamp_characterization_witness :
    streamRoute confW reqBadTs cnt0 =
      .rejected (invalidTimestampError "not-a-real-date") cnt0 ∧
    (invalidTimestampError "not-a-real-date").detail =
      "since timestamp is not a UTC milliseconds unix epoch and was not parseable: "
        ++ sq ++ "not-a-real-date" ++ sq :=
  ⟨((invalid_timestamp_characterization confW reqBadTs cnt0 rfl rfl).1
      "not-a-real-date" rfl).mpr ⟨by decide, by decide, rfl⟩, rfl⟩

/-- Claim C4 counterexample: `since=Infinity` is present and neither
base-10-integer parsing nor date parsing yields a finite epoch value, yet the
request is admitted rather than rejected: `isNaN("Infinity")` is false in
JavaScript (the coercion yields the non-finite Infinity), so the handler
skips both `Date.parse` and the rejection, and hands the raw string through. -/
theorem since_infinity_not_rejected :
    (streamRoute confW reqInf cnt0).isAdmitted = true ∧
    (streamRoute confW reqInf cnt0).atTsOf? = some (some (.inl "Infinity")) ∧
    strToNat? "Infinity" = none ∧
    dateParse "Infinity" = none ∧
    isNaNStr "Infinity" = false :=
  ⟨rfl, rfl, rfl, rfl, by decide⟩

/-- Claim C3 (amended): the topic collection handed to the streaming engine
is the in-order concatenation of the topic lists of all requested stream
names, multiplicities preserved (the count of each topic is the sum of its
counts over the requested names) — not a de-duplicated union; the
allowed-topics option is handed the same collection.  (The de-duplication
stated by the original claim is refuted by the counterexample.) -/
theorem topics_concatenation (conf : Conf) (req : Request) (counter : CounterState)
    (h : (streamRoute conf req counter).isAdmitted = true) :
    (streamRoute conf req counter).topicsOf? =
      some ((splitComma req.streamsParam).map (catalogTopics conf)).flatten ∧
    (streamRoute conf req counter).allowedOf? = (streamRoute conf req counter).topicsOf? ∧
    ∀ t, optCount t (streamRoute conf req counter).topicsOf? =
      ((splitComma req.streamsParam).map (fun s => countStr t (catalogTopics conf s))).sum := by
  obtain ⟨-, -, ts, -, heq⟩ := route_admitted_inv conf req counter h
  rw [heq]
  refine ⟨rfl, rfl, fun t => ?_⟩
  show countStr t ((splitComma req.streamsParam).map (catalogTopics conf)).flatten = _
  exact countStr_flatten t (catalogTopics conf) (splitComma req.streamsParam)

/-- Witness for C3 (amended): the shared-topic request concretely receives
the concatenation, with the shared topic counted twice. -/
theorem topics_concatenation_witness :
    (streamRoute confW reqShared cnt0).topicsOf? =
      some (((splitComma "articles,pages").map (catalogTopics confW)).flatten) ∧
    optCount "topic.articles" (streamRoute confW reqShared cnt0).topicsOf? = 2 :=
  ⟨(topics_concatenation confW reqShared cnt0 rfl).1,
   (topics_concatenation confW reqShared cnt0 rfl).2.2 "topic.articles"⟩

/-- Claim C3 counterexample: the two distinct configured streams `articles`
and `pages` share the topic `topic.articles`; requesting both hands the
engine a collection containing that topic twice, so the handed collection is
not de-duplicated. -/
theorem shared_topic_not_deduplicated :
    (streamRoute confW reqShared cnt0).topicsOf? =
      some ["topic.articles", "topic.articles"] ∧
    countStr "topic.articles" ["topic.articles", "topic.articles"] = 2 ∧
    ("articles" : String) ≠ "pages" :=
  ⟨rfl, by decide, by decide⟩

/-- Claim C8: the resume hint handed to the engine is the raw `since` string
unchanged when it is a non-empty all-digit base-10 epoch-ms string (the code
never rewrites its value), the `Date.parse` epoch-ms integer when `since`
coerces to NaN but parses as a date, and no hint at all when `since` is
absent. -/
theorem resume_hint_forms (conf : Conf) (req : Request) (counter : CounterState)
    (h : (streamRoute conf req counter).isAdmitted = true) :
    (∀ s, req.since = some s → s.data ≠ [] → s.data.all isDigitChar = true →
      (streamRoute conf req counter).atTsOf? = some (some (.inl s))) ∧
    (∀ s n, req.since = some s → (s != "" && isNaNStr s) = true → dateParse s = some n →
      (streamRoute conf req counter).atTsOf? = some (some (.inr n))) ∧
    (req.since = none → (streamRoute conf req counter).atTsOf? = some none) := by
  obtain ⟨-, -, ts, hts, heq⟩ := route_admitted_inv conf req counter h
  rw [heq]
  refine ⟨?_, ?_, ?_⟩
  · intro s hs hne hall
    rw [hs, tsResolve_ok_raw s (by rw [digits_not_nan s hne hall, Bool.and_false])] at hts
    cases hts
    rfl
  · intro s n hs hcond hdate
    rw [hs, tsResolve_ok_date s n hcond hdate] at hts
    cases hts
    rfl
  · intro hn
    rw [hn] at hts
    have h2 : (Except.ok none : Except HTTPErr (Option (String ⊕ Int))) = .ok ts := hts
    cases h2
    rfl

/-- Witness for C8 (Scenarios C and D): `since=1600000000000` is handed
through as that raw string, whose base-10 value is 1600000000000, and
`since=2020-09-13T12:26:40Z` is handed as the integer 1600000000000. -/
theorem resume_hint_forms_witness :
    (streamRoute confW reqMain cnt0).atTsOf? = some (some (.inl "1600000000000")) ∧
    strToNat? "1600000000000" = some 1600000000000 ∧
    (streamRoute confW reqIso cnt0).atTsOf? = some (some (.inr 1600000000000)) :=
  ⟨(resume_hint_forms confW reqMain cnt0 rfl).1 "1600000000000" rfl (by decide) (by decide),
    by decide,
    (resume_hint_forms confW reqIso cnt0 rfl).2.1 "2020-09-13T12:26:40Z" 1600000000000
      rfl (by decide) rfl⟩

/-- Claim C9: raw-records framing (SSE formatting disabled) holds exactly
when the request declared a content-type value starting with
"application/json"; with the header absent or any other value the default
formatted mode is kept. -/
theorem sse_framing_iff (conf : Conf) (req : Request) (counter : CounterState)
    (h : (streamRoute conf req counter).isAdmitted = true) :
    ((streamRoute conf req counter).sseOff? = some true ↔
      ∃ ct, req.contentType = some ct ∧ strStarts "application/json" ct = true) := by
  obtain ⟨-, -, ts, -, heq⟩ := route_admitted_inv conf req counter h
  rw [heq]
  show some (sseDisabled req) = some true ↔ _
  constructor
  · intro hd
    have hd' : sseDisabled req = true := by simpa using hd
    unfold sseDisabled at hd'
    cases hct : req.contentType with
    | none => rw [hct] at hd'; exact absurd hd' Bool.false_ne_true
    | some ct => rw [hct] at hd'; exact ⟨ct, rfl, hd'⟩
  · rintro ⟨ct, hct, hstart⟩
    have hd : sseDisabled req = true := by unfold sseDisabled; rw [hct]; exact hstart
    rw [hd]

/-- Witness for C9: a declared `application/json; charset=utf-8` content type
switches the admitted request to raw-records framing. -/
theorem sse_framing_iff_witness :
    (streamRoute confW reqMain cnt0).sseOff? = some true :=
  (sse_framing_iff confW reqMain cnt0 rfl).mpr
    ⟨"application/json; charset=utf-8", rfl, rfl⟩

/-- Claim C10: a stream name occurring k times in the request list has its
counter key incremented k times at admission and decremented k times by the
close handler, and each of its topics contributes k occurrences to the topic
list handed to the engine — duplicate occurrences are not collapsed at any
stage. -/
theorem duplicate_streams_not_collapsed (conf : Conf) (req : Request)
    (counter : CounterState) (s t : String)
    (h : (streamRoute conf req counter).isAdmitted = true) :
    optCount (streamKey conf s) (streamRoute conf req counter).incsOf? =
      countStr s (splitComma req.streamsParam) ∧
    optCount (streamKey conf s) (streamRoute conf req counter).decsOf? =
      countStr s (splitComma req.streamsParam) ∧
    countStr s (splitComma req.streamsParam) * countStr t (catalogTopics conf s) ≤
      optCount t (streamRoute conf req counter).topicsOf? := by
  obtain ⟨-, -, ts, -, heq⟩ := route_admitted_inv conf req counter h
  rw [heq]
  have hz : countStr (streamKey conf s) (clientMetricOpt conf req).toList = 0 := by
    unfold clientMetricOpt
    split
    · show countStr (streamKey conf s) [clientMetricOf conf req] = 0
      simp only [countStr]
      rw [if_neg (fun hh => streamKey_ne_clientKey conf s (req.xClientIp.getD "") hh.symm)]
    · rfl
  have hinc : countStr (streamKey conf s)
      ((splitComma req.streamsParam).map (streamKey conf) ++
        (clientMetricOpt conf req).toList) =
      countStr s (splitComma req.streamsParam) := by
    rw [countStr_append, countStr_map_inj (streamKey conf) s _ (streamKey_inj conf), hz]
    omega
  refine ⟨hinc, hinc, ?_⟩
  show countStr s (splitComma req.streamsParam) * countStr t (catalogTopics conf s) ≤
    countStr t ((splitComma req.streamsParam).map (catalogTopics conf)).flatten
  rw [countStr_flatten]
  exact countStr_mul_le_sum s t (catalogTopics conf) (splitComma req.streamsParam)

/-- Witness for C10: the list `articles,articles` (k = 2) increments and
decrements the articles key twice and hands the engine the articles topic
twice. -/
theorem duplicate_streams_not_collapsed_witness :
    optCount "host.0.connections.stream.articles" (streamRoute confW reqDup cnt0).incsOf? = 2 ∧
    optCount "host.0.connections.stream.articles" (streamRoute confW reqDup cnt0).decsOf? = 2 ∧
    2 * 1 ≤ optCount "topic.articles" (streamRoute confW reqDup cnt0).topicsOf? :=
  ⟨(duplicate_streams_not_collapsed confW reqDup cnt0 "articles" "topic.articles" rfl).1,
   (duplicate_streams_not_collapsed confW reqDup cnt0 "articles" "topic.articles" rfl).2.1,
   (duplicate_streams_not_collapsed confW reqDup cnt0 "articles" "topic.articles" rfl).2.2⟩

end EventStreams
